import Mathlib

/-!
Verification of the preload-cache coordinator, admin toggle operations and
URL-id extraction of the djvirtu repository, against its natural-language
specification.

The TypeScript source is shallowly embedded:
* table rows become structures mirroring `src/types/database.ts`;
* the hosted database's `select … eq('is_published', true) … order(k) … limit(n)`
  reads are modelled as filter / stable sort / take over the table contents;
* the preloader (`src/hooks/usePreloader.ts`) is modelled as the list of
  observable events (progress emissions, issued reads, the single cache store,
  image-preload requests) it produces, with an optional abort point standing
  for an exception reaching the outer try/catch;
* admin writes (`VideosManager.toggleFeatured`, `EventsManager.toggleFeatured`)
  are modelled as the list of row-targeted updates they issue, applied in order
  to the table state;
* `extractVideoId` (`VideosManager.tsx`) is modelled with a small backtracking
  regular-expression engine translated from the two regex literals.
-/

namespace Djvirtu

/-! ## Data model (src/types/database.ts, supabase-schema.sql)

Presentation-only columns that no modelled operation reads or writes
(descriptions, storage paths, byte sizes, timestamps other than the ones used
as sort keys) are elided. -/

structure Photo where
  id : String
  album_id : Option String
  title : Option String
  url : String
  thumbnail_url : Option String
  is_published : Bool
  display_order : Int
deriving DecidableEq, Repr

structure Video where
  id : String
  title : String
  url : String
  thumbnail_url : Option String
  video_type_tag : String
  external_id : Option String
  is_featured : Bool
  is_published : Bool
  display_order : Int
deriving DecidableEq, Repr

structure Event where
  id : String
  title : String
  venue : Option String
  city : Option String
  event_date : String
  start_time : Option String
  is_featured : Bool
  is_published : Bool
deriving DecidableEq, Repr

structure SiteSetting where
  id : String
  key : String
  value : Option String
  stype : String
  description : Option String
deriving DecidableEq, Repr

structure Album where
  id : String
  title : String
  is_published : Bool
  created_at : String
deriving DecidableEq, Repr

/-! ## Remote Data Gateway ordering relations

`order('display_order', { ascending: true })` and friends.  A boolean column
ordered with `ascending: false` puts `true` rows first. -/

def photoLe (a b : Photo) : Prop := a.display_order ≤ b.display_order

instance : DecidableRel photoLe := fun a b =>
  inferInstanceAs (Decidable (a.display_order ≤ b.display_order))

instance : IsTotal Photo photoLe := ⟨fun a b => le_total a.display_order b.display_order⟩

instance : IsTrans Photo photoLe := ⟨fun _ _ _ h h' => le_trans h h'⟩

/-- Rank of the `is_featured` column under `order('is_featured', { ascending: false })`:
featured rows sort first. -/
def featRank (b : Bool) : Nat := if b then 0 else 1

def videoLe (a b : Video) : Prop :=
  featRank a.is_featured < featRank b.is_featured ∨
    (featRank a.is_featured = featRank b.is_featured ∧ a.display_order ≤ b.display_order)

instance : DecidableRel videoLe := fun v w =>
  inferInstanceAs (Decidable (featRank v.is_featured < featRank w.is_featured ∨
    (featRank v.is_featured = featRank w.is_featured ∧ v.display_order ≤ w.display_order)))

instance : IsTotal Video videoLe := by
  constructor
  intro a b
  rcases Nat.lt_trichotomy (featRank a.is_featured) (featRank b.is_featured) with h | h | h
  · exact Or.inl (Or.inl h)
  · rcases le_total a.display_order b.display_order with h' | h'
    · exact Or.inl (Or.inr ⟨h, h'⟩)
    · exact Or.inr (Or.inr ⟨h.symm, h'⟩)
  · exact Or.inr (Or.inl h)

instance : IsTrans Video videoLe := by
  constructor
  intro a b c hab hbc
  rcases hab with h | ⟨he, hd⟩
  · rcases hbc with h' | ⟨he', _⟩
    · exact Or.inl (h.trans h')
    · exact Or.inl (he' ▸ h)
  · rcases hbc with h' | ⟨he', hd'⟩
    · exact Or.inl (he ▸ h')
    · exact Or.inr ⟨he.trans he', hd.trans hd'⟩

def eventLe (a b : Event) : Prop := a.event_date ≤ b.event_date

instance : DecidableRel eventLe := fun a b =>
  inferInstanceAs (Decidable (a.event_date ≤ b.event_date))

instance : IsTotal Event eventLe := ⟨fun a b => le_total a.event_date b.event_date⟩

instance : IsTrans Event eventLe := ⟨fun _ _ _ h h' => le_trans h h'⟩

/-- `order('created_at', { ascending: false })` for albums: newest first. -/
def albumLe (a b : Album) : Prop := b.created_at ≤ a.created_at

instance : DecidableRel albumLe := fun a b =>
  inferInstanceAs (Decidable (b.created_at ≤ a.created_at))

instance : IsTotal Album albumLe := ⟨fun a b => (le_total b.created_at a.created_at)⟩

instance : IsTrans Album albumLe := ⟨fun _ _ _ h h' => le_trans h' h⟩

/-! ## Backend state and the preloader's four reads
(src/hooks/usePreloader.ts lines 117-173)

Each read function wraps its gateway call in try/catch; a failed call (the
`xxxOk` flag false) degrades to `null` / `[]`.  `.single()` on the settings
read returns the row only when the table holds exactly one row, and an error
(hence `null` data) otherwise. -/

structure Backend where
  settingsOk : Bool
  photosOk : Bool
  videosOk : Bool
  eventsOk : Bool
  site_settings : List SiteSetting
  photos : List Photo
  videos : List Video
  events : List Event
deriving DecidableEq, Repr

/-- PostgREST `.single()`: exactly one row, else an error (null data). -/
def singleRow {α : Type} : List α → Option α
  | [r] => some r
  | _ => none

/-- `supabase.from('site_settings').select('*').single()`, with the
surrounding try/catch returning `null` on failure. -/
def preloadSettings (b : Backend) : Option SiteSetting :=
  if b.settingsOk then singleRow b.site_settings else none

/-- `from('photos').select('*').eq('is_published', true)
      .order('display_order', { ascending: true }).limit(12)`. -/
def queryPhotos (tbl : List Photo) : List Photo :=
  ((tbl.filter (·.is_published)).insertionSort photoLe).take 12

def preloadPhotos (b : Backend) : List Photo :=
  if b.photosOk then queryPhotos b.photos else []

/-- `from('videos').select('*').eq('is_published', true)
      .order('is_featured', { ascending: false })
      .order('display_order', { ascending: true }).limit(6)`. -/
def queryVideos (tbl : List Video) : List Video :=
  ((tbl.filter (·.is_published)).insertionSort videoLe).take 6

def preloadVideos (b : Backend) : List Video :=
  if b.videosOk then queryVideos b.videos else []

/-- `from('events').select('*').eq('is_published', true)
      .order('event_date', { ascending: true }).limit(10)`. -/
def queryEvents (tbl : List Event) : List Event :=
  ((tbl.filter (·.is_published)).insertionSort eventLe).take 10

def preloadEvents (b : Backend) : List Event :=
  if b.eventsOk then queryEvents b.events else []

/-- The snapshot bundle stored in the module-level cache slot
(`preloadedDataCache`, usePreloader.ts lines 10-18). -/
structure PreloadedData where
  settings : Option SiteSetting
  photos : List Photo
  videos : List Video
  events : List Event
deriving DecidableEq, Repr

/-- The single cache assignment of usePreloader.ts lines 63-69. -/
def bundleOf (b : Backend) : PreloadedData :=
  { settings := preloadSettings b
    photos := preloadPhotos b
    videos := preloadVideos b
    events := preloadEvents b }

/-- `preloadCriticalImages` (lines 176-202): up to 6 photo urls followed by up
to 3 video thumbnail urls drawn from the cache; nothing when the cache is
still `null`. -/
def criticalImages : Option PreloadedData → List String
  | none => []
  | some d =>
      (d.photos.take 6).map (·.url) ++ (d.videos.take 3).filterMap (·.thumbnail_url)

/-! ## The preloader run as a list of observable events -/

inductive Tbl where
  | site_settings | photos | videos | events | albums
deriving DecidableEq, Repr

inductive Ev where
  /-- `updateProgress(percent, status)` -/
  | emit (percent : Nat) (status : String)
  /-- an `await` suspension point inside the outer try block -/
  | pause
  /-- a read issued against the Remote Data Gateway -/
  | read (t : Tbl)
  /-- the single assignment to `preloadedDataCache` -/
  | store (d : PreloadedData)
  /-- the batch of image-preload requests -/
  | img (urls : List String)
deriving DecidableEq, Repr

/-- The event sequence of one exception-free run of `preload()`
(usePreloader.ts lines 36-93), for a fresh page load (cache starts `null`). -/
def script (cfg : Bool) (b : Backend) : List Ev :=
  [Ev.emit 5 "Carregando fontes...", Ev.pause, Ev.emit 15 "Fontes carregadas"] ++
  (if cfg then
    [Ev.emit 20 "Conectando ao servidor...",
     Ev.emit 25 "Carregando configurações...", Ev.read Tbl.site_settings, Ev.pause,
     Ev.emit 35 "Carregando galeria...", Ev.read Tbl.photos, Ev.pause,
     Ev.emit 50 "Carregando vídeos...", Ev.read Tbl.videos, Ev.pause,
     Ev.emit 60 "Carregando eventos...", Ev.read Tbl.events, Ev.pause,
     Ev.store (bundleOf b),
     Ev.emit 70 "Dados carregados"]
   else
    [Ev.emit 70 "Modo offline"]) ++
  [Ev.emit 75 "Preparando imagens...",
   Ev.img (criticalImages (if cfg then some (bundleOf b) else none)), Ev.pause,
   Ev.emit 90 "Imagens prontas",
   Ev.emit 95 "Finalizando...", Ev.pause,
   Ev.emit 100 "Pronto!"]

/-- Truncate the run at its `k`-th suspension point: everything up to (and
excluding) that `await` has already happened when an exception is raised
there. -/
def cutAtPause : List Ev → Nat → List Ev
  | [], _ => []
  | Ev.pause :: rest, k =>
      match k with
      | 0 => []
      | k + 1 => cutAtPause rest k
  | e :: rest, k => e :: cutAtPause rest k

/-- A full run of `preload()`.  `abort = some k` models an exception thrown at
the `k`-th `await` of the try block; the catch handler (lines 88-92) then
emits the final `updateProgress(100, 'Pronto!')`. -/
def preloadRun (cfg : Bool) (b : Backend) (abort : Option Nat) : List Ev :=
  match abort with
  | none => script cfg b
  | some k => cutAtPause (script cfg b) k ++ [Ev.emit 100 "Pronto!"]

/-! ## Observation projections -/

def emitOf : Ev → Option (Nat × String)
  | Ev.emit p s => some (p, s)
  | _ => none

def readOf : Ev → Option Tbl
  | Ev.read t => some t
  | _ => none

def storeOf : Ev → Option PreloadedData
  | Ev.store d => some d
  | _ => none

def imgOf : Ev → Option (List String)
  | Ev.img u => some u
  | _ => none

/-- The `(percent, status)` pairs emitted by a run, in order. -/
def emissionsOf (evs : List Ev) : List (Nat × String) := evs.filterMap emitOf

/-- The progress percentages emitted by a run, in order. -/
def progressOf (evs : List Ev) : List Nat := evs.filterMap (fun e => (emitOf e).map (·.1))

/-- The gateway reads issued by a run, in order. -/
def readsOf (evs : List Ev) : List Tbl := evs.filterMap readOf

/-- The cache-slot assignments performed by a run, in order. -/
def storesOf (evs : List Ev) : List PreloadedData := evs.filterMap storeOf

/-- The individual image-preload requests issued by a run, in order. -/
def imgReqsOf (evs : List Ev) : List String := (evs.filterMap imgOf).flatten

/-- The value `getPreloadedData()` returns after the events `evs`, starting
from cache contents `c` (usePreloader.ts lines 17-22). -/
def cacheAfter (c : Option PreloadedData) (evs : List Ev) : Option PreloadedData :=
  evs.foldl (fun acc e => match e with | Ev.store d => some d | _ => acc) c

/-! ## Admin featured-flag toggles
(VideosManager.tsx lines 328-346, EventsManager lines 216-230) -/

/-- A single-column update issued against one table's `is_featured` column:
`featuredEq i v` is `.update({ is_featured: v }).eq('id', i)`,
`featuredNe i v` is `.update({ is_featured: v }).neq('id', i)`. -/
inductive RowWrite where
  | featuredEq (id : String) (v : Bool)
  | featuredNe (id : String) (v : Bool)
deriving DecidableEq, Repr

def applyVideoWrite (tbl : List Video) : RowWrite → List Video
  | RowWrite.featuredEq i v =>
      tbl.map fun x => if x.id = i then { x with is_featured := v } else x
  | RowWrite.featuredNe i v =>
      tbl.map fun x => if x.id ≠ i then { x with is_featured := v } else x

/-- `VideosManager.toggleFeatured`: when the clicked video is not featured,
first clear `is_featured` on every other row, then set the clicked row to the
negation of its client-side flag; returns the issued writes and the table
after applying them in order. -/
def videosToggleFeatured (tbl : List Video) (video : Video) : List RowWrite × List Video :=
  let ws :=
    (if video.is_featured then [] else [RowWrite.featuredNe video.id false]) ++
      [RowWrite.featuredEq video.id (!video.is_featured)]
  (ws, ws.foldl applyVideoWrite tbl)

def applyEventWrite (tbl : List Event) : RowWrite → List Event
  | RowWrite.featuredEq i v =>
      tbl.map fun x => if x.id = i then { x with is_featured := v } else x
  | RowWrite.featuredNe i v =>
      tbl.map fun x => if x.id ≠ i then { x with is_featured := v } else x

/-- `EventsManager.toggleFeatured`: a single update targeting the clicked
event's row. -/
def eventsToggleFeatured (tbl : List Event) (event : Event) : List RowWrite × List Event :=
  let ws := [RowWrite.featuredEq event.id (!event.is_featured)]
  (ws, ws.foldl applyEventWrite tbl)

/-! ## Section data consumers (Events and Gallery public sections) -/

/-- `from('events').select('*').eq('is_published', true)
      .order('event_date', { ascending: true })` — the Events section's own
read (no limit). -/
def sectionQueryEvents (tbl : List Event) : List Event :=
  (tbl.filter (·.is_published)).insertionSort eventLe

/-- `from('photos').select('*').eq('is_published', true)
      .order('display_order', { ascending: true })` — the Gallery section's
own photos read (no limit). -/
def sectionQueryPhotos (tbl : List Photo) : List Photo :=
  (tbl.filter (·.is_published)).insertionSort photoLe

/-- `from('albums').select('*').eq('is_published', true)
      .order('created_at', { ascending: false })`. -/
def sectionQueryAlbums (tbl : List Album) : List Album :=
  (tbl.filter (·.is_published)).insertionSort albumLe

inductive SectionEv where
  | netRead (t : Tbl)
  | logError
deriving DecidableEq, Repr

/-- The Events section's network path: the read is issued; a gateway failure
(`resp = none`) is caught, logged (`console.error`) and leaves the list
empty. -/
def eventsNet (resp : Option (List Event)) : List SectionEv × List Event :=
  match resp with
  | some tbl => ([SectionEv.netRead Tbl.events], sectionQueryEvents tbl)
  | none => ([SectionEv.netRead Tbl.events, SectionEv.logError], [])

/-- `Events.fetchEvents`: nothing when the backend is unconfigured; the cached
events when the preloaded bundle's events list is non-empty; otherwise the
section's own read. -/
def eventsSectionFetch (cfg : Bool) (cache : Option PreloadedData)
    (resp : Option (List Event)) : List SectionEv × List Event :=
  if cfg then
    match cache with
    | some d => if d.events.isEmpty then eventsNet resp else ([], d.events)
    | none => eventsNet resp
  else ([], [])

/-- The Gallery section's network path: photos and albums reads are issued
together (`Promise.all`); a failure of either is caught and logged, leaving
both lists empty. -/
def galleryNet (pr : Option (List Photo)) (ar : Option (List Album)) :
    List SectionEv × List Photo × List Album :=
  match pr, ar with
  | some pt, some al =>
      ([SectionEv.netRead Tbl.photos, SectionEv.netRead Tbl.albums],
        sectionQueryPhotos pt, sectionQueryAlbums al)
  | _, _ =>
      ([SectionEv.netRead Tbl.photos, SectionEv.netRead Tbl.albums, SectionEv.logError],
        [], [])

/-- `Gallery.fetchGallery`: when the preloaded bundle's photos list is
non-empty the cached photos are used directly, but an albums read is still
issued in the background (albums are not part of the bundle); otherwise both
reads are issued. -/
def gallerySectionFetch (cfg : Bool) (cache : Option PreloadedData)
    (pr : Option (List Photo)) (ar : Option (List Album)) :
    List SectionEv × List Photo × List Album :=
  if cfg then
    match cache with
    | some d =>
        if d.photos.isEmpty then galleryNet pr ar
        else
          ([SectionEv.netRead Tbl.albums], d.photos,
            match ar with
            | some al => sectionQueryAlbums al
            | none => [])
    | none => galleryNet pr ar
  else ([], [], [])

/-! ## `extractVideoId` (VideosManager.tsx lines 100-112)

The two regex literals are translated into a small backtracking matcher over
character lists.  Alternatives are tried left to right and quantifiers
greedily (longest first), as in the JavaScript engine. -/

inductive VideoType where
  | upload | youtube | vimeo
deriving DecidableEq, Repr

/-- The character class excluded by the capture group `[^"&?\/\s]`. -/
def ytExcluded (c : Char) : Bool :=
  c = '"' || c = '&' || c = '?' || c = '/' || c.isWhitespace

/-- The characters matched by `.` (anything but a line terminator). -/
def dotChar (c : Char) : Bool := !(c = '\n' || c = '\r')

/-- Regular-expression shapes needed by the two source literals. -/
inductive RE where
  | lit (s : List Char)
  | one (p : Char → Bool)
  | star (p : Char → Bool)
  | plus (p : Char → Bool)
  | opt (r : RE)
  | seq (a b : RE)
  | alt (a b : RE)

/-- Remainders after a greedy `p*`: longest consumption first. -/
def starRem (p : Char → Bool) : List Char → List (List Char)
  | [] => [[]]
  | c :: cs => if p c then starRem p cs ++ [c :: cs] else [c :: cs]

/-- All remainders of matching `r` at the head of `cs`, in backtracking
priority order. -/
def reRun : RE → List Char → List (List Char)
  | RE.lit s, cs => if s.isPrefixOf cs then [cs.drop s.length] else []
  | RE.one p, cs =>
      match cs with
      | [] => []
      | c :: r => if p c then [r] else []
  | RE.star p, cs => starRem p cs
  | RE.plus p, cs =>
      match cs with
      | [] => []
      | c :: r => if p c then starRem p r else []
  | RE.opt r, cs => reRun r cs ++ [cs]
  | RE.seq a b, cs => (reRun a cs).flatMap (reRun b)
  | RE.alt a b, cs => reRun a cs ++ reRun b cs

/-- The prefix (everything before the capture group) of
`/(?:youtube\.com\/(?:[^\/]+\/.+\/|(?:v|e(?:mbed)?)\/|.*[?&]v=)|youtu\.be\/)/`. -/
def ytPre : RE :=
  RE.alt
    (RE.seq (RE.lit "youtube.com/".toList)
      (RE.alt
        (RE.seq (RE.plus (fun c => !(c = '/')))
          (RE.seq (RE.lit ['/']) (RE.seq (RE.plus dotChar) (RE.lit ['/']))))
        (RE.alt
          (RE.seq (RE.alt (RE.lit ['v']) (RE.seq (RE.lit ['e']) (RE.opt (RE.lit "mbed".toList))))
            (RE.lit ['/']))
          (RE.seq (RE.star dotChar)
            (RE.seq (RE.one (fun c => c = '?' || c = '&')) (RE.lit "v=".toList))))))
    (RE.lit "youtu.be/".toList)

/-- The capture group `([^"&?\/\s]{11})`: exactly 11 characters of the class. -/
def ytCapture (cs : List Char) : Option (List Char) :=
  let pre := cs.take 11
  if pre.length = 11 && pre.all (fun c => !ytExcluded c) then some pre else none

/-- Try the whole YouTube regex anchored at this position. -/
def ytMatchAt (cs : List Char) : Option (List Char) :=
  ((reRun ytPre cs).filterMap ytCapture).head?

/-- `url.match(...)`: scan start positions left to right. -/
def ytScan : List Char → Option (List Char)
  | [] => ytMatchAt []
  | c :: cs =>
      match ytMatchAt (c :: cs) with
      | some r => some r
      | none => ytScan cs

/-- `/vimeo\.com\/(?:video\/)?(\d+)/` anchored at this position.  When the
optional `video/` is present but not followed by a digit, the backtracked
alternative (leaving `video/` unconsumed) fails as well, since `v` is not a
digit — so consuming it greedily is exact. -/
def viMatchAt (cs : List Char) : Option (List Char) :=
  if "vimeo.com/".toList.isPrefixOf cs then
    let rest := cs.drop 10
    let rest2 := if "video/".toList.isPrefixOf rest then rest.drop 6 else rest
    let ds := rest2.takeWhile (fun c => c.isDigit)
    if ds.isEmpty then none else some ds
  else none

def viScan : List Char → Option (List Char)
  | [] => viMatchAt []
  | c :: cs =>
      match viMatchAt (c :: cs) with
      | some r => some r
      | none => viScan cs

/-- `extractVideoId(url, type)`. -/
def extractVideoId (url : String) (t : VideoType) : String :=
  match t with
  | VideoType.youtube =>
      match ytScan url.data with
      | some cs => ⟨cs⟩
      | none => ""
  | VideoType.vimeo =>
      match viScan url.data with
      | some cs => ⟨cs⟩
      | none => ""
  | VideoType.upload => ""

/-! ## The spec's settings snapshot, for comparison with the code -/

/-- Modelled from the spec: the SettingsSnapshot "mapping from string key to
string value" that the specification asserts the bundle's settings field to
be.  It corresponds to the aggregation the admin SettingsManager builds
client-side (`settingsMap[setting.key] = setting.value || ''`); the preloader
itself stores no such map. -/
def settingsKeyValueMap (rows : List SiteSetting) : List (String × String) :=
  rows.map fun r => (r.key, r.value.getD "")

/-! ## Concrete table rows used by witnesses and counterexamples -/

def sR1 : SiteSetting := ⟨"s1", "hero_title", some "DJ NAME", "text", none⟩

def sR2 : SiteSetting := ⟨"s2", "contact_email", some "contato@djname.com", "text", none⟩

def ph1 : Photo := ⟨"p1", none, some "Foto", "https://cdn/p1.jpg", some "https://cdn/p1t.jpg", true, 1⟩

def vd1 : Video :=
  ⟨"v1", "Set", "https://youtu.be/dQw4w9WgXcQ", some "https://cdn/v1t.jpg", "youtube",
    some "dQw4w9WgXcQ", false, true, 1⟩

def ev1 : Event := ⟨"e1", "Show", some "Club", some "SP", "2026-02-01", some "22:00", false, true⟩

/-- A configured backend whose settings table holds exactly one row. -/
def bDemo : Backend := ⟨true, true, true, true, [sR1], [ph1], [vd1], [ev1]⟩

/-- A configured backend whose (key/value) settings table holds two rows, as
the repository's seed script populates it with thirteen. -/
def bTwoSettings : Backend := ⟨true, true, true, true, [sR1, sR2], [ph1], [vd1], [ev1]⟩

/-- `bDemo` with the settings read failing. -/
def bSettingsFail : Backend := ⟨false, true, true, true, [sR1], [ph1], [vd1], [ev1]⟩

def vA : Video := ⟨"vA", "A", "uA", none, "upload", none, false, true, 1⟩

def vB : Video := ⟨"vB", "B", "uB", none, "upload", none, false, true, 2⟩

def vC : Video := ⟨"vC", "C", "uC", none, "upload", none, false, true, 3⟩

/-- Three videos, none featured. -/
def videosTbl3 : List Video := [vA, vB, vC]

def evA : Event := ⟨"eA", "A", none, none, "2026-01-01", none, false, true⟩

def evB : Event := ⟨"eB", "B", none, none, "2026-01-02", none, true, true⟩

def eventsTbl2 : List Event := [evA, evB]

/-- A populated preloaded bundle (photos and events non-empty). -/
def dCache : PreloadedData := ⟨some sR1, [ph1], [vd1], [ev1]⟩

/-! ## Generic helper lemmas about truncated runs -/

lemma pre_nil {α : Type} (l : List α) : [] <+: l := ⟨l, rfl⟩

lemma pre_cons {α : Type} {l₁ l₂ : List α} (a : α) (h : l₁ <+: l₂) :
    a :: l₁ <+: a :: l₂ := by
  obtain ⟨t, rfl⟩ := h
  exact ⟨t, rfl⟩

lemma pre_sub {α : Type} {l₁ l₂ : List α} (h : l₁ <+: l₂) : l₁.Sublist l₂ := by
  obtain ⟨t, rfl⟩ := h
  exact List.sublist_append_left l₁ t

lemma pre_take {α : Type} (n : Nat) (l : List α) : l.take n <+: l :=
  ⟨l.drop n, l.take_append_drop n⟩

lemma cutAtPause_sublist : ∀ (s : List Ev) (k : Nat), (cutAtPause s k).Sublist s := by
  intro s
  induction s with
  | nil => intro k; simp [cutAtPause]
  | cons e rest ih =>
    intro k
    cases e with
    | pause =>
      cases k with
      | zero => simp [cutAtPause]
      | succ k => exact (ih k).cons _
    | emit p st => exact (ih k).cons₂ _
    | read t => exact (ih k).cons₂ _
    | store d => exact (ih k).cons₂ _
    | img u => exact (ih k).cons₂ _

lemma pre_filterMap_cons {β : Type} (f : Ev → Option β) (e : Ev) {l₁ l₂ : List Ev}
    (h : l₁.filterMap f <+: l₂.filterMap f) :
    (e :: l₁).filterMap f <+: (e :: l₂).filterMap f := by
  cases hfe : f e with
  | none => simpa [List.filterMap_cons, hfe] using h
  | some b => simpa [List.filterMap_cons, hfe] using pre_cons b h

lemma filterMap_cutAtPause_pre {β : Type} (f : Ev → Option β) (hf : f Ev.pause = none) :
    ∀ (s : List Ev) (k : Nat), (cutAtPause s k).filterMap f <+: s.filterMap f := by
  intro s
  induction s with
  | nil => intro k; exact pre_nil _
  | cons e rest ih =>
    intro k
    cases e with
    | pause =>
      cases k with
      | zero => exact pre_nil _
      | succ k => simpa [cutAtPause, List.filterMap_cons, hf] using ih k
    | emit p st => exact pre_filterMap_cons f _ (ih k)
    | read t => exact pre_filterMap_cons f _ (ih k)
    | store d => exact pre_filterMap_cons f _ (ih k)
    | img u => exact pre_filterMap_cons f _ (ih k)

lemma cacheAfter_of_no_store :
    ∀ (p : List Ev) (c : Option PreloadedData),
      (∀ d, Ev.store d ∉ p) → cacheAfter c p = c := by
  intro p
  induction p with
  | nil => intro c _; rfl
  | cons e rest ih =>
    intro c h
    cases e with
    | store d => exact absurd (List.mem_cons_self _ _) (h d)
    | pause => exact ih c fun d hd => h d (List.mem_cons_of_mem _ hd)
    | emit q st => exact ih c fun d hd => h d (List.mem_cons_of_mem _ hd)
    | read t => exact ih c fun d hd => h d (List.mem_cons_of_mem _ hd)
    | img u => exact ih c fun d hd => h d (List.mem_cons_of_mem _ hd)

lemma cacheAfter_some_src :
    ∀ (p : List Ev) (c : Option PreloadedData) (d : PreloadedData),
      cacheAfter c p = some d → Ev.store d ∈ p ∨ c = some d := by
  intro p
  induction p with
  | nil => intro c d h; exact Or.inr h
  | cons e rest ih =>
    intro c d h
    cases e with
    | store d' =>
      rcases ih (some d') d h with hm | hc
      · exact Or.inl (List.mem_cons_of_mem _ hm)
      · have hd : d' = d := Option.some.inj hc
        subst hd
        exact Or.inl (List.mem_cons_self _ _)
    | pause =>
      rcases ih c d h with hm | hc
      · exact Or.inl (List.mem_cons_of_mem _ hm)
      · exact Or.inr hc
    | emit q st =>
      rcases ih c d h with hm | hc
      · exact Or.inl (List.mem_cons_of_mem _ hm)
      · exact Or.inr hc
    | read t =>
      rcases ih c d h with hm | hc
      · exact Or.inl (List.mem_cons_of_mem _ hm)
      · exact Or.inr hc
    | img u =>
      rcases ih c d h with hm | hc
      · exact Or.inl (List.mem_cons_of_mem _ hm)
      · exact Or.inr hc

/-! ## Concrete observation lists of an exception-free run -/

lemma progressOf_script_true (b : Backend) :
    progressOf (script true b) = [5, 15, 20, 25, 35, 50, 60, 70, 75, 90, 95, 100] := rfl

lemma progressOf_script_false (b : Backend) :
    progressOf (script false b) = [5, 15, 70, 75, 90, 95, 100] := rfl

lemma progressOf_script_sorted (cfg : Bool) (b : Backend) :
    List.Sorted (· ≤ ·) (progressOf (script cfg b)) := by
  cases cfg
  · rw [progressOf_script_false]; decide
  · rw [progressOf_script_true]; decide

lemma progressOf_script_le (cfg : Bool) (b : Backend) :
    ∀ q ∈ progressOf (script cfg b), q ≤ 100 := by
  cases cfg
  · rw [progressOf_script_false]; decide
  · rw [progressOf_script_true]; decide

lemma progressOf_script_last (cfg : Bool) (b : Backend) :
    (progressOf (script cfg b)).getLast? = some 100 := by
  cases cfg
  · rw [progressOf_script_false]; rfl
  · rw [progressOf_script_true]; rfl

/-- C1. For every execution of the preloader — backend configured or not, any
subset of the individual steps failing (the `Ok` flags of `b`), and an
exception raised at any suspension point (`abort`) — the emitted progress
percentages are non-decreasing, all lie in `0..100`, and the final emitted
value is exactly `100`. -/
theorem preloader_progress_monotone (cfg : Bool) (b : Backend) (abort : Option Nat) :
    progressOf (preloadRun cfg b abort) ≠ [] ∧
    List.Sorted (· ≤ ·) (progressOf (preloadRun cfg b abort)) ∧
    (∀ q ∈ progressOf (preloadRun cfg b abort), q ≤ 100) ∧
    (progressOf (preloadRun cfg b abort)).getLast? = some 100 := by
  cases abort with
  | none =>
    refine ⟨?_, progressOf_script_sorted cfg b, progressOf_script_le cfg b,
      progressOf_script_last cfg b⟩
    cases cfg
    · rw [preloadRun, progressOf_script_false]; simp
    · rw [preloadRun, progressOf_script_true]; simp
  | some k =>
    have hpre : progressOf (cutAtPause (script cfg b) k) <+: progressOf (script cfg b) :=
      filterMap_cutAtPause_pre _ rfl (script cfg b) k
    have heq : progressOf (preloadRun cfg b (some k))
        = progressOf (cutAtPause (script cfg b) k) ++ [100] := by
      simp [preloadRun, progressOf, List.filterMap_append, emitOf]
    rw [heq]
    refine ⟨by simp, ?_, ?_, List.getLast?_concat _⟩
    · refine (List.pairwise_append).mpr ⟨?_, List.pairwise_singleton _ _, ?_⟩
      · exact List.Pairwise.sublist (pre_sub hpre) (progressOf_script_sorted cfg b)
      · intro a ha c hc
        have hc' : c = 100 := by simpa using hc
        subst hc'
        exact progressOf_script_le cfg b a (List.Sublist.mem ha (pre_sub hpre))
    · intro q hq
      rcases List.mem_append.mp hq with h | h
      · exact progressOf_script_le cfg b q (List.Sublist.mem h (pre_sub hpre))
      · have : q = 100 := by simpa using h
        omega

/-- C1 witness: the theorem applied at a concrete run, its inner membership
hypothesis discharged at the concrete value `15`. -/
theorem preloader_progress_monotone_witness :
    (15 ∈ progressOf (preloadRun true ⟨true, true, true, true, [], [], [], []⟩ (some 2)) ∧
      15 ≤ 100) ∧
    progressOf (preloadRun true ⟨true, true, true, true, [], [], [], []⟩ (some 2))
      = [5, 15, 20, 25, 35, 100] :=
  ⟨⟨by decide,
    (preloader_progress_monotone true ⟨true, true, true, true, [], [], [], []⟩ (some 2)).2.2.1
      15 (by decide)⟩, by decide⟩

/-! ## Cache-slot lifecycle (C2) -/

lemma ev_mem_run {cfg : Bool} {b : Backend} {abort : Option Nat} {e : Ev}
    (h : e ∈ preloadRun cfg b abort) (hne : ∀ p s, e ≠ Ev.emit p s) :
    e ∈ script cfg b := by
  cases abort with
  | none => exact h
  | some k =>
    rcases List.mem_append.mp h with h' | h'
    · exact List.Sublist.mem h' (cutAtPause_sublist _ k)
    · exact absurd (by simpa using h') (hne 100 "Pronto!")

lemma store_mem_script {cfg : Bool} {b : Backend} {d : PreloadedData}
    (h : Ev.store d ∈ script cfg b) : d = bundleOf b := by
  cases cfg
  · simp [script] at h
  · simp [script] at h
    exact h

lemma store_mem_run {cfg : Bool} {b : Backend} {abort : Option Nat} {d : PreloadedData}
    (h : Ev.store d ∈ preloadRun cfg b abort) : d = bundleOf b :=
  store_mem_script (ev_mem_run h (fun _ _ h' => Ev.noConfusion h'))

lemma no_store_script_false (b : Backend) (d : PreloadedData) :
    Ev.store d ∉ script false b := by
  simp [script]

/-- C2 counterexample: in a configured, fully successful run the cache slot is
populated at the store step (70% checkpoint) — a reachable point strictly
before the final 100% emission at which `getPreloadedData()` is already
non-null, contradicting "returns absent at every point before the final 100%
emission". -/
theorem preloader_cache_nonnull_before_completion :
    ((script true bDemo).take 18 <+: preloadRun true bDemo none) ∧
    (100 ∉ progressOf ((script true bDemo).take 18)) ∧
    cacheAfter none ((script true bDemo).take 18) ≠ none := by
  refine ⟨pre_take 18 _, by decide, by decide⟩

/-- C2 (amended).  For every run prefix `p`: `getPreloadedData()` is null
before the store step; the cache only ever holds the full four-field bundle,
stored in a single assignment (never a partially-populated one); with an
unconfigured backend it stays null forever; with a configured backend,
strictly after an exception-free completed run it holds the full bundle. -/
theorem preloader_cache_lifecycle (cfg : Bool) (b : Backend) (abort : Option Nat)
    (p : List Ev) (hp : p <+: preloadRun cfg b abort) :
    ((∀ d, Ev.store d ∉ p) → cacheAfter none p = none) ∧
    (cacheAfter none p = none ∨ cacheAfter none p = some (bundleOf b)) ∧
    (cfg = false → cacheAfter none p = none) ∧
    (cfg = true → cacheAfter none (preloadRun cfg b none) = some (bundleOf b)) := by
  have hsrc : ∀ d, cacheAfter none p = some d → d = bundleOf b := by
    intro d hd
    rcases cacheAfter_some_src p none d hd with hm | hc
    · exact store_mem_run (List.Sublist.mem hm (pre_sub hp))
    · cases hc
  refine ⟨fun h => cacheAfter_of_no_store p none h, ?_, ?_, ?_⟩
  · cases hcc : cacheAfter none p with
    | none => exact Or.inl rfl
    | some d =>
      have hd := hsrc d hcc
      subst hd
      exact Or.inr rfl
  · intro hcfg
    subst hcfg
    apply cacheAfter_of_no_store
    intro d hd
    exact no_store_script_false b d
      (ev_mem_run (List.Sublist.mem hd (pre_sub hp)) (fun _ _ h' => Ev.noConfusion h'))
  · intro hcfg
    subst hcfg
    rfl

/-- C2 witness: the amended theorem applied to the full successful run. -/
theorem preloader_cache_lifecycle_witness :
    cacheAfter none (preloadRun true bDemo none) = some (bundleOf bDemo) :=
  (preloader_cache_lifecycle true bDemo none (preloadRun true bDemo none)
    ⟨[], List.append_nil _⟩).2.2.2 rfl

/-! ## Four reads, fault isolation (C3) -/

/-- C3.  With a configured backend the preloader issues exactly four gateway
reads, in the fixed order settings, photos, videos, events; each read is
independently wrapped: when one fails its bundle field degrades to null / the
empty list while the other three fields are exactly what they would have been
had it succeeded; and progress still ends at 100. -/
theorem preloader_four_reads_fault_isolated (b : Backend) :
    readsOf (preloadRun true b none)
      = [Tbl.site_settings, Tbl.photos, Tbl.videos, Tbl.events] ∧
    (b.settingsOk = false →
      (bundleOf b).settings = none ∧
      (bundleOf b).photos = (bundleOf { b with settingsOk := true }).photos ∧
      (bundleOf b).videos = (bundleOf { b with settingsOk := true }).videos ∧
      (bundleOf b).events = (bundleOf { b with settingsOk := true }).events) ∧
    (b.photosOk = false →
      (bundleOf b).photos = [] ∧
      (bundleOf b).settings = (bundleOf { b with photosOk := true }).settings ∧
      (bundleOf b).videos = (bundleOf { b with photosOk := true }).videos ∧
      (bundleOf b).events = (bundleOf { b with photosOk := true }).events) ∧
    (b.videosOk = false →
      (bundleOf b).videos = [] ∧
      (bundleOf b).settings = (bundleOf { b with videosOk := true }).settings ∧
      (bundleOf b).photos = (bundleOf { b with videosOk := true }).photos ∧
      (bundleOf b).events = (bundleOf { b with videosOk := true }).events) ∧
    (b.eventsOk = false →
      (bundleOf b).events = [] ∧
      (bundleOf b).settings = (bundleOf { b with eventsOk := true }).settings ∧
      (bundleOf b).photos = (bundleOf { b with eventsOk := true }).photos ∧
      (bundleOf b).videos = (bundleOf { b with eventsOk := true }).videos) ∧
    (progressOf (preloadRun true b none)).getLast? = some 100 := by
  refine ⟨rfl, ?_, ?_, ?_, ?_, progressOf_script_last true b⟩ <;>
    · intro h
      simp [bundleOf, preloadSettings, preloadPhotos, preloadVideos, preloadEvents, h]

/-- C3 witness: settings read fails, the other three succeed. -/
theorem preloader_four_reads_witness :
    (bundleOf bSettingsFail).settings = none ∧
    (bundleOf bSettingsFail).photos = (bundleOf bDemo).photos ∧
    readsOf (preloadRun true bSettingsFail none)
      = [Tbl.site_settings, Tbl.photos, Tbl.videos, Tbl.events] :=
  ⟨((preloader_four_reads_fault_isolated bSettingsFail).2.1 rfl).1,
    ((preloader_four_reads_fault_isolated bSettingsFail).2.1 rfl).2.1,
    (preloader_four_reads_fault_isolated bSettingsFail).1⟩

/-! ## Offline mode (C5) -/

lemma filterMap_run_nil {β : Type} (f : Ev → Option β) (hf : f Ev.pause = none)
    (cfg : Bool) (b : Backend) (abort : Option Nat)
    (hemit : ∀ p s, f (Ev.emit p s) = none)
    (hs : (script cfg b).filterMap f = []) :
    (preloadRun cfg b abort).filterMap f = [] := by
  cases abort with
  | none => exact hs
  | some k =>
    have h := filterMap_cutAtPause_pre f hf (script cfg b) k
    rw [hs] at h
    have h2 := List.sublist_nil.mp (pre_sub h)
    simp [preloadRun, List.filterMap_append, h2, hemit]

lemma img_mem_script {cfg : Bool} {b : Backend} {u : List String}
    (h : Ev.img u ∈ script cfg b) :
    u = criticalImages (if cfg then some (bundleOf b) else none) := by
  cases cfg
  · simp [script] at h
    simpa using h
  · simp [script] at h
    simpa using h

/-- C5.  With an unconfigured backend the preloader issues no gateway read,
never stores a bundle, issues no image-preload request, and its emissions jump
from the 15% checkpoint directly to 70% with the offline-mode label, still
terminating at exactly 100. -/
theorem preloader_offline (b : Backend) (abort : Option Nat) :
    readsOf (preloadRun false b abort) = [] ∧
    storesOf (preloadRun false b abort) = [] ∧
    imgReqsOf (preloadRun false b abort) = [] ∧
    emissionsOf (preloadRun false b none) =
      [(5, "Carregando fontes..."), (15, "Fontes carregadas"), (70, "Modo offline"),
       (75, "Preparando imagens..."), (90, "Imagens prontas"), (95, "Finalizando..."),
       (100, "Pronto!")] := by
  refine ⟨?_, ?_, ?_, rfl⟩
  · exact filterMap_run_nil readOf rfl false b abort (fun _ _ => rfl) rfl
  · exact filterMap_run_nil storeOf rfl false b abort (fun _ _ => rfl) rfl
  · show ((preloadRun false b abort).filterMap imgOf).flatten = []
    rw [List.flatten_eq_nil_iff]
    intro u hu
    rcases List.mem_filterMap.mp hu with ⟨e, he, hfe⟩
    cases e <;> simp [imgOf] at hfe
    subst hfe
    have := img_mem_script (ev_mem_run he (fun _ _ h' => Ev.noConfusion h'))
    simpa [criticalImages] using this

/-! ## Query shape of the three list reads (C6) -/

lemma query_mem {α : Type} (r : α → α → Prop) [DecidableRel r] (pub : α → Bool)
    (tbl : List α) (n : Nat) {x : α}
    (hx : x ∈ ((tbl.filter pub).insertionSort r).take n) :
    pub x = true ∧ x ∈ tbl := by
  have hx' : x ∈ (tbl.filter pub).insertionSort r :=
    List.Sublist.mem hx (List.take_sublist n _)
  have hx'' : x ∈ tbl.filter pub := (List.perm_insertionSort r _).mem_iff.mp hx'
  exact ⟨List.of_mem_filter hx'', List.mem_of_mem_filter hx''⟩

lemma query_sorted {α : Type} (r : α → α → Prop) [DecidableRel r] [IsTotal α r] [IsTrans α r]
    (pub : α → Bool) (tbl : List α) (n : Nat) :
    List.Sorted r (((tbl.filter pub).insertionSort r).take n) :=
  List.Pairwise.sublist (List.take_sublist n _) (List.sorted_insertionSort r _)

lemma query_len {α : Type} (l : List α) (n : Nat) : (l.take n).length ≤ n := by
  simp [List.length_take]

/-- C6.  Every row of the bundle's photos/videos/events lists is a published
row of the corresponding table; each list carries the documented ordering
(photos by display order, videos featured-first then display order, events by
date); and the caps are 12 photos, 6 videos, 10 events. -/
theorem preloader_list_reads_published_ordered_capped (b : Backend) :
    ((∀ p ∈ (bundleOf b).photos, p.is_published = true ∧ p ∈ b.photos) ∧
      List.Sorted photoLe (bundleOf b).photos ∧ (bundleOf b).photos.length ≤ 12) ∧
    ((∀ v ∈ (bundleOf b).videos, v.is_published = true ∧ v ∈ b.videos) ∧
      List.Sorted videoLe (bundleOf b).videos ∧ (bundleOf b).videos.length ≤ 6) ∧
    ((∀ e ∈ (bundleOf b).events, e.is_published = true ∧ e ∈ b.events) ∧
      List.Sorted eventLe (bundleOf b).events ∧ (bundleOf b).events.length ≤ 10) := by
  refine ⟨?_, ?_, ?_⟩
  · cases hb : b.photosOk
    · simp [bundleOf, preloadPhotos, hb]
    · simp only [bundleOf, preloadPhotos, hb, if_true, queryPhotos]
      exact ⟨fun p hp => query_mem photoLe _ _ _ hp, query_sorted photoLe _ _ _,
        query_len _ _⟩
  · cases hb : b.videosOk
    · simp [bundleOf, preloadVideos, hb]
    · simp only [bundleOf, preloadVideos, hb, if_true, queryVideos]
      exact ⟨fun v hv => query_mem videoLe _ _ _ hv, query_sorted videoLe _ _ _,
        query_len _ _⟩
  · cases hb : b.eventsOk
    · simp [bundleOf, preloadEvents, hb]
    · simp only [bundleOf, preloadEvents, hb, if_true, queryEvents]
      exact ⟨fun e he => query_mem eventLe _ _ _ he, query_sorted eventLe _ _ _,
        query_len _ _⟩

/-- C6 witness: applied to the concrete backend `bDemo`. -/
theorem preloader_list_reads_witness :
    (ph1 ∈ (bundleOf bDemo).photos ∧ ph1.is_published = true) ∧
    (bundleOf bDemo).videos.length ≤ 6 :=
  ⟨⟨by decide,
    ((preloader_list_reads_published_ordered_capped bDemo).1.1 ph1 (by decide)).1⟩,
    (preloader_list_reads_published_ordered_capped bDemo).2.1.2.2⟩

/-! ## The videos featured toggle (C4) -/

lemma countP_eq_one_of_nodup_map {α β : Type} [DecidableEq β] (f : α → β)
    {l : List α} {a : α} (hmem : a ∈ l) (hnd : (l.map f).Nodup) :
    l.countP (fun x => decide (f x = f a)) = 1 := by
  induction l with
  | nil => cases hmem
  | cons y ys ih =>
    rw [List.map_cons, List.nodup_cons] at hnd
    rcases List.mem_cons.mp hmem with rfl | hmem'
    · rw [List.countP_cons]
      have h0 : ys.countP (fun x => decide (f x = f a)) = 0 := by
        rw [List.countP_eq_zero]
        intro x hx
        simp only [decide_eq_true_eq]
        intro hfx
        exact hnd.1 (hfx ▸ List.mem_map_of_mem f hx)
      simp [h0]
    · rw [List.countP_cons]
      have hne : f y ≠ f a := by
        intro hfy
        exact hnd.1 (hfy ▸ List.mem_map_of_mem f hmem')
      simp [ih hmem' hnd.2, hne]

lemma videos_clear_then_set (tbl : List Video) (video : Video)
    (hvf : video.is_featured = false) :
    (videosToggleFeatured tbl video).2
      = tbl.map fun x =>
          if x.id = video.id then { x with is_featured := true }
          else { x with is_featured := false } := by
  simp only [videosToggleFeatured, hvf, Bool.false_eq_true, if_false, Bool.not_false,
    List.singleton_append, List.foldl_cons, List.foldl_nil, applyVideoWrite, List.map_map]
  apply List.map_congr_left
  intro x _
  by_cases hid : x.id = video.id <;> simp [hid]

lemma videos_toggle_unfeat_count (tbl : List Video) (video : Video)
    (hvf : video.is_featured = false) (hmem : video ∈ tbl)
    (hids : (tbl.map (·.id)).Nodup) :
    (videosToggleFeatured tbl video).2.countP (·.is_featured) = 1 := by
  rw [videos_clear_then_set tbl video hvf, List.countP_map]
  have hcg : ∀ x ∈ tbl,
      (((·.is_featured) ∘ fun x =>
        if x.id = video.id then { x with is_featured := true }
        else { x with is_featured := false }) x = true)
        ↔ ((fun x => decide (x.id = video.id)) x = true) := by
    intro x _
    by_cases hid : x.id = video.id <;> simp [hid]
  rw [List.countP_congr hcg]
  exact countP_eq_one_of_nodup_map (·.id) hmem hids

lemma videos_toggle_unfeat_featured_id (tbl : List Video) (video : Video)
    (hvf : video.is_featured = false) {x : Video}
    (hx : x ∈ (videosToggleFeatured tbl video).2) (hfx : x.is_featured = true) :
    x.id = video.id := by
  rw [videos_clear_then_set tbl video hvf] at hx
  rcases List.mem_map.mp hx with ⟨y, _, rfl⟩
  by_cases hid : y.id = video.id
  · simp [hid]
  · simp [hid] at hfx

lemma videos_toggle_feat_count_le (tbl : List Video) (video : Video)
    (hvf : video.is_featured = true) :
    (videosToggleFeatured tbl video).2.countP (·.is_featured)
      ≤ tbl.countP (·.is_featured) := by
  simp only [videosToggleFeatured, hvf, if_true, Bool.not_true, List.nil_append,
    List.foldl_cons, List.foldl_nil, applyVideoWrite]
  rw [List.countP_map]
  apply List.countP_mono_left
  intro x _
  by_cases hid : x.id = video.id <;> simp [hid]

/-- C4.  Toggling featured on a video `B` of a table with pairwise-distinct
ids and no featured video issues two sequential writes — clear `is_featured`
on every other row, then set it on `B` — after which exactly one video is
featured and every featured row has `B`'s id; and a single uninterleaved run
of the toggle preserves the at-most-one-featured invariant. -/
theorem videos_toggleFeatured_at_most_one (tbl : List Video) (video : Video)
    (hmem : video ∈ tbl) (hids : (tbl.map (·.id)).Nodup) :
    (tbl.countP (·.is_featured) = 0 →
      (videosToggleFeatured tbl video).1
        = [RowWrite.featuredNe video.id false, RowWrite.featuredEq video.id true] ∧
      (videosToggleFeatured tbl video).2.countP (·.is_featured) = 1 ∧
      (∀ x ∈ (videosToggleFeatured tbl video).2,
        x.is_featured = true → x.id = video.id)) ∧
    (tbl.countP (·.is_featured) ≤ 1 →
      (videosToggleFeatured tbl video).2.countP (·.is_featured) ≤ 1) := by
  constructor
  · intro h0
    have hvf : video.is_featured = false := by
      by_contra hvf
      have hpos : 0 < tbl.countP (·.is_featured) :=
        List.countP_pos_iff.mpr ⟨video, hmem, by simpa using hvf⟩
      omega
    refine ⟨by simp [videosToggleFeatured, hvf], ?_, ?_⟩
    · exact videos_toggle_unfeat_count tbl video hvf hmem hids
    · intro x hx hfx
      exact videos_toggle_unfeat_featured_id tbl video hvf hx hfx
  · intro h1
    cases hvf : video.is_featured
    · rw [videos_toggle_unfeat_count tbl video hvf hmem hids]
    · exact le_trans (videos_toggle_feat_count_le tbl video hvf) h1

/-- C4 witness: three concrete videos, none featured, toggling `vB`. -/
theorem videos_toggleFeatured_witness :
    videosTbl3.countP (·.is_featured) = 0 ∧
    (videosToggleFeatured videosTbl3 vB).1
      = [RowWrite.featuredNe "vB" false, RowWrite.featuredEq "vB" true] ∧
    (videosToggleFeatured videosTbl3 vB).2.countP (·.is_featured) = 1 :=
  ⟨by decide,
    ((videos_toggleFeatured_at_most_one videosTbl3 vB (by decide) (by decide)).1
      (by decide)).1,
    ((videos_toggleFeatured_at_most_one videosTbl3 vB (by decide) (by decide)).1
      (by decide)).2.1⟩

/-! ## The events featured toggle (C9) -/

lemma zip_map_self {α β : Type} (g : α → β) :
    ∀ l : List α, l.zip (l.map g) = l.map fun a => (a, g a)
  | [] => rfl
  | a :: l => by simp [zip_map_self g l]

/-- C9.  `EventsManager.toggleFeatured` issues exactly one update, targeting
only the given event's row by id and writing the negation of its featured
flag; rows with a different id are left byte-for-byte unchanged (no
clear-all-others write is issued, unlike the videos toggle). -/
theorem events_toggleFeatured_single_write (tbl : List Event) (event : Event) :
    (eventsToggleFeatured tbl event).1
      = [RowWrite.featuredEq event.id (!event.is_featured)] ∧
    (eventsToggleFeatured tbl event).2.length = tbl.length ∧
    (∀ q ∈ tbl.zip (eventsToggleFeatured tbl event).2,
      (q.1.id ≠ event.id → q.2 = q.1) ∧
      (q.1.id = event.id →
        q.2 = { q.1 with is_featured := !event.is_featured })) ∧
    (event ∈ tbl →
      { event with is_featured := !event.is_featured }
        ∈ (eventsToggleFeatured tbl event).2) := by
  have hres : (eventsToggleFeatured tbl event).2
      = tbl.map fun x =>
          if x.id = event.id then { x with is_featured := !event.is_featured } else x :=
    rfl
  refine ⟨rfl, by rw [hres, List.length_map], ?_, ?_⟩
  · intro q hq
    rw [hres, zip_map_self] at hq
    rcases List.mem_map.mp hq with ⟨y, _, rfl⟩
    constructor
    · intro hid
      simp only at hid ⊢
      simp [hid]
    · intro hid
      simp only at hid ⊢
      simp [hid]
  · intro hmem
    rw [hres]
    exact List.mem_map.mpr ⟨event, hmem, by simp⟩

/-- C9 witness: toggling `evA` in a concrete two-event table leaves `evB`
unchanged and flips `evA`. -/
theorem events_toggleFeatured_witness :
    ((evB, evB) ∈ eventsTbl2.zip (eventsToggleFeatured eventsTbl2 evA).2 ∧
      (evB, evB).2 = (evB, evB).1) ∧
    { evA with is_featured := true } ∈ (eventsToggleFeatured eventsTbl2 evA).2 :=
  ⟨⟨by decide,
    ((events_toggleFeatured_single_write eventsTbl2 evA).2.2.1 (evB, evB)
      (by decide)).1 (by decide)⟩,
    (events_toggleFeatured_single_write eventsTbl2 evA).2.2.2 (by decide)⟩

/-! ## Section data consumers (C7) -/

lemma section_query_mem {α : Type} (r : α → α → Prop) [DecidableRel r] (pub : α → Bool)
    (tbl : List α) {x : α} (hx : x ∈ (tbl.filter pub).insertionSort r) :
    pub x = true :=
  List.of_mem_filter ((List.perm_insertionSort r _).mem_iff.mp hx)

lemma eventsNet_ok (tbl : List Event) :
    (eventsNet (some tbl)).1 = [SectionEv.netRead Tbl.events] ∧
    (∀ e ∈ (eventsNet (some tbl)).2, e.is_published = true) ∧
    List.Sorted eventLe (eventsNet (some tbl)).2 := by
  refine ⟨rfl, ?_, ?_⟩
  · intro e he
    exact section_query_mem eventLe _ _ he
  · exact List.sorted_insertionSort eventLe _

lemma galleryNet_ok (pt : List Photo) (al : List Album) :
    (galleryNet (some pt) (some al)).1
      = [SectionEv.netRead Tbl.photos, SectionEv.netRead Tbl.albums] ∧
    (∀ p ∈ (galleryNet (some pt) (some al)).2.1, p.is_published = true) ∧
    List.Sorted photoLe (galleryNet (some pt) (some al)).2.1 := by
  refine ⟨rfl, ?_, ?_⟩
  · intro p hp
    exact section_query_mem photoLe _ _ hp
  · exact List.sorted_insertionSort photoLe _

/-- C7 counterexample: the Gallery section, even when the preloaded bundle's
photos are non-empty, still issues a network read (for albums, which are not
part of the bundle) — refuting "uses it directly and issues no network
call" for every section. -/
theorem gallery_cachehit_issues_albums_read :
    dCache.photos ≠ [] ∧
    (gallerySectionFetch true (some dCache) none none).1
      = [SectionEv.netRead Tbl.albums] :=
  ⟨by decide, by decide⟩

/-- C7 (amended).  On mount with a configured backend: a section whose bundle
field is non-empty uses it directly and issues no read *for that field* —
the Events section then issues no read at all, while the Gallery section
still issues a background albums read; on a cache miss the section issues its
own read(s) filtered to published rows with the documented ordering; a
gateway error on this direct path is logged and leaves the section's list
empty (no crash). -/
theorem sections_cache_or_fetch (cache : Option PreloadedData) (d : PreloadedData)
    (er : Option (List Event)) (pr : Option (List Photo)) (ar : Option (List Album)) :
    (cache = some d → d.events ≠ [] →
      eventsSectionFetch true cache er = ([], d.events)) ∧
    ((cache = none ∨ (cache = some d ∧ d.events = [])) →
      (er = none → eventsSectionFetch true cache er
          = ([SectionEv.netRead Tbl.events, SectionEv.logError], [])) ∧
      (∀ tbl, er = some tbl →
        (eventsSectionFetch true cache er).1 = [SectionEv.netRead Tbl.events] ∧
        (∀ e ∈ (eventsSectionFetch true cache er).2, e.is_published = true) ∧
        List.Sorted eventLe (eventsSectionFetch true cache er).2)) ∧
    (cache = some d → d.photos ≠ [] →
      (gallerySectionFetch true cache pr ar).1 = [SectionEv.netRead Tbl.albums] ∧
      (gallerySectionFetch true cache pr ar).2.1 = d.photos) ∧
    ((cache = none ∨ (cache = some d ∧ d.photos = [])) →
      ((pr = none ∨ ar = none) → gallerySectionFetch true cache pr ar
          = ([SectionEv.netRead Tbl.photos, SectionEv.netRead Tbl.albums,
              SectionEv.logError], [], [])) ∧
      (∀ pt al, pr = some pt → ar = some al →
        (gallerySectionFetch true cache pr ar).1
          = [SectionEv.netRead Tbl.photos, SectionEv.netRead Tbl.albums] ∧
        (∀ p ∈ (gallerySectionFetch true cache pr ar).2.1, p.is_published = true) ∧
        List.Sorted photoLe (gallerySectionFetch true cache pr ar).2.1)) := by
  refine ⟨?_, ?_, ?_, ?_⟩
  · rintro rfl hne
    simp [eventsSectionFetch, List.isEmpty_iff, hne]
  · rintro (rfl | ⟨rfl, hnil⟩)
    · refine ⟨fun h => by subst h; rfl, ?_⟩
      rintro tbl rfl
      exact eventsNet_ok tbl
    · have hred : ∀ r, eventsSectionFetch true (some d) r = eventsNet r := by
        intro r
        simp [eventsSectionFetch, List.isEmpty_iff, hnil]
      refine ⟨fun h => by subst h; rw [hred]; rfl, ?_⟩
      rintro tbl rfl
      rw [hred]
      exact eventsNet_ok tbl
  · rintro rfl hne
    simp [gallerySectionFetch, List.isEmpty_iff, hne]
  · rintro (rfl | ⟨rfl, hnil⟩)
    · refine ⟨?_, ?_⟩
      · rintro (rfl | rfl)
        · rfl
        · cases pr <;> rfl
      · rintro pt al rfl rfl
        exact galleryNet_ok pt al
    · have hred : ∀ p a, gallerySectionFetch true (some d) p a = galleryNet p a := by
        intro p a
        simp [gallerySectionFetch, List.isEmpty_iff, hnil]
      refine ⟨?_, ?_⟩
      · rintro (rfl | rfl)
        · rw [hred]
          rfl
        · rw [hred]
          cases pr <;> rfl
      · rintro pt al rfl rfl
        rw [hred]
        exact galleryNet_ok pt al

/-- C7 witness: cache hit for Events (no read at all) and Gallery (photos
used directly), on the concrete bundle `dCache`. -/
theorem sections_cache_or_fetch_witness :
    eventsSectionFetch true (some dCache) none = ([], dCache.events) ∧
    (gallerySectionFetch true (some dCache) none none).2.1 = dCache.photos :=
  ⟨(sections_cache_or_fetch (some dCache) dCache none none none).1 rfl (by decide),
    ((sections_cache_or_fetch (some dCache) dCache none none none).2.2.1 rfl
      (by decide)).2⟩

/-! ## The settings snapshot (C8) -/

/-- C8 counterexample: a configured, fully successful run over a two-row
key/value settings table (the repository's seed script inserts thirteen such
rows) terminates at 100 and stores the bundle, yet the bundle's settings
field is `null` — the `.single()` read errors on any row count other than
one — while the key/value map the claim describes would cover both rows. -/
theorem preloader_settings_not_a_map :
    (progressOf (preloadRun true bTwoSettings none)).getLast? = some 100 ∧
    cacheAfter none (preloadRun true bTwoSettings none) = some (bundleOf bTwoSettings) ∧
    bTwoSettings.settingsOk = true ∧
    bTwoSettings.site_settings.length = 2 ∧
    (bundleOf bTwoSettings).settings = none ∧
    settingsKeyValueMap bTwoSettings.site_settings
      = [("hero_title", "DJ NAME"), ("contact_email", "contato@djname.com")] :=
  ⟨rfl, rfl, rfl, rfl, rfl, rfl⟩

/-- C8 (amended).  The bundle's settings field is the single settings row when
the read succeeds and the table holds exactly one row; with zero rows, with
two or more rows (the seeded key/value layout), or with a failed read it is
`null`.  It is never a key-to-value map over the rows — that aggregation
exists only client-side in the admin SettingsManager. -/
theorem preloader_settings_single_row (b : Backend) :
    (∀ r, b.settingsOk = true → b.site_settings = [r] →
      (bundleOf b).settings = some r) ∧
    (∀ r₁ r₂ rest, b.site_settings = r₁ :: r₂ :: rest → (bundleOf b).settings = none) ∧
    (b.site_settings = [] → (bundleOf b).settings = none) ∧
    (b.settingsOk = false → (bundleOf b).settings = none) := by
  refine ⟨?_, ?_, ?_, ?_⟩
  · intro r hok hrow
    simp [bundleOf, preloadSettings, singleRow, hok, hrow]
  · intro r₁ r₂ rest hrow
    simp [bundleOf, preloadSettings, singleRow, hrow]
  · intro hrow
    simp [bundleOf, preloadSettings, singleRow, hrow]
  · intro hok
    simp [bundleOf, preloadSettings, hok]

/-- C8 witness: the amended theorem applied at a one-row and a two-row
settings table. -/
theorem preloader_settings_single_row_witness :
    (bundleOf bDemo).settings = some sR1 ∧ (bundleOf bTwoSettings).settings = none :=
  ⟨(preloader_settings_single_row bDemo).1 sR1 rfl rfl,
    (preloader_settings_single_row bTwoSettings).2.1 sR1 sR2 [] rfl⟩

/-! ## `extractVideoId` output shapes (C10) -/

lemma ytCapture_shape {cs r : List Char} (h : ytCapture cs = some r) :
    r.length = 11 ∧ ∀ c ∈ r, ytExcluded c = false := by
  simp only [ytCapture] at h
  split at h
  · rename_i hcond
    cases h
    simp only [Bool.and_eq_true, decide_eq_true_eq, List.all_eq_true, Bool.not_eq_eq_eq_not,
      Bool.not_true] at hcond
    exact ⟨hcond.1, hcond.2⟩
  · cases h

lemma ytMatchAt_shape {cs r : List Char} (h : ytMatchAt cs = some r) :
    r.length = 11 ∧ ∀ c ∈ r, ytExcluded c = false := by
  have hr : r ∈ (reRun ytPre cs).filterMap ytCapture :=
    List.mem_of_mem_head? (Option.mem_def.mpr h)
  rcases List.mem_filterMap.mp hr with ⟨cs', _, hc⟩
  exact ytCapture_shape hc

lemma ytScan_shape : ∀ {cs r : List Char}, ytScan cs = some r →
    r.length = 11 ∧ ∀ c ∈ r, ytExcluded c = false := by
  intro cs
  induction cs with
  | nil => intro r h; exact ytMatchAt_shape h
  | cons c cs ih =>
    intro r h
    rw [ytScan] at h
    cases hm : ytMatchAt (c :: cs) with
    | some r' =>
      rw [hm] at h
      cases h
      exact ytMatchAt_shape hm
    | none =>
      rw [hm] at h
      exact ih h

lemma viMatchAt_shape {cs r : List Char} (h : viMatchAt cs = some r) :
    r ≠ [] ∧ ∀ c ∈ r, c.isDigit = true := by
  simp only [viMatchAt] at h
  split at h
  · split at h
    · split at h
      · cases h
      · rename_i hne
        cases h
        exact ⟨by simpa [List.isEmpty_iff] using hne,
          fun c hc => List.mem_takeWhile_imp hc⟩
    · split at h
      · cases h
      · rename_i hne
        cases h
        exact ⟨by simpa [List.isEmpty_iff] using hne,
          fun c hc => List.mem_takeWhile_imp hc⟩
  · cases h

lemma viScan_shape : ∀ {cs r : List Char}, viScan cs = some r →
    r ≠ [] ∧ ∀ c ∈ r, c.isDigit = true := by
  intro cs
  induction cs with
  | nil => intro r h; exact viMatchAt_shape h
  | cons c cs ih =>
    intro r h
    rw [viScan] at h
    cases hm : viMatchAt (c :: cs) with
    | some r' =>
      rw [hm] at h
      cases h
      exact viMatchAt_shape hm
    | none =>
      rw [hm] at h
      exact ih h

/-- C10.  For every input URL: `extractVideoId` with type `upload` returns
the empty string; with type `youtube` it returns the empty string or a string
of exactly 11 characters; with type `vimeo` it returns the empty string or a
non-empty string consisting only of decimal digits. -/
theorem extractVideoId_shapes (url : String) :
    extractVideoId url VideoType.upload = "" ∧
    (extractVideoId url VideoType.youtube = "" ∨
      (extractVideoId url VideoType.youtube).length = 11) ∧
    (extractVideoId url VideoType.vimeo = "" ∨
      (extractVideoId url VideoType.vimeo ≠ "" ∧
        ∀ c ∈ (extractVideoId url VideoType.vimeo).data, c.isDigit = true)) := by
  refine ⟨rfl, ?_, ?_⟩
  · rw [extractVideoId]
    cases hy : ytScan url.data with
    | none => exact Or.inl rfl
    | some cs =>
      right
      have hlen := (ytScan_shape hy).1
      simpa [String.length] using hlen
  · rw [extractVideoId]
    cases hv : viScan url.data with
    | none => exact Or.inl rfl
    | some cs =>
      right
      have h1 := viScan_shape hv
      constructor
      · intro hc
        have hdata : cs = [] := by
          have := congrArg String.data hc
          simpa using this
        exact h1.1 hdata
      · intro c hc
        exact h1.2 c (by simpa using hc)

/-- C10 witness: the theorem applied at concrete URLs, with the concrete
extractions evaluated. -/
theorem extractVideoId_shapes_witness :
    extractVideoId "https://vimeo.com/987" VideoType.upload = "" ∧
    (extractVideoId "https://www.youtube.com/watch?v=dQw4w9WgXcQ" VideoType.youtube = "" ∨
      (extractVideoId "https://www.youtube.com/watch?v=dQw4w9WgXcQ"
        VideoType.youtube).length = 11) ∧
    extractVideoId "https://www.youtube.com/watch?v=dQw4w9WgXcQ" VideoType.youtube
      = "dQw4w9WgXcQ" ∧
    extractVideoId "https://vimeo.com/987" VideoType.vimeo = "987" :=
  ⟨(extractVideoId_shapes "https://vimeo.com/987").1,
    (extractVideoId_shapes "https://www.youtube.com/watch?v=dQw4w9WgXcQ").2.1,
    by decide, by decide⟩

end Djvirtu
